import Mathlib

/-!
Shallow embedding of the streaming conversation controller of the results
page (the ResultsPage component in the source). The controller state
gathers the React state hooks (isLoading, conversation, searchId,
currentlyViewedSnippets), the module level mutable reference
prevEventSource, and the per session event counter i of the live
onmessage closure. Object identity of conversation turn objects, which
drives the useEffect dependency on lastServerResponse, is modelled by a
fresh ident stamped on every newly constructed turn object (every
JavaScript object spread creates a new object). EventSource delivery is
modelled by tagging each stream with a numeric session id: a closed
EventSource fires no further callbacks (browser contract), so both
handlers are guarded on the list of closed sessions.
-/

namespace Bloop

/-- Author of a conversation turn. -/
inductive Author
  | user
  | server
deriving DecidableEq

/-- Raw wire snippet record (the NLSnippet shape of the api types). -/
structure NLSnippet where
  relative_path : String
  text : String
  repo_name : String
  lang : String
  start_line : Nat
deriving DecidableEq

/-- Display snippet attached to a server turn. -/
structure DisplaySnippet where
  path : String
  code : String
  repoName : String
  lang : String
  line : Nat
deriving DecidableEq

/-- The snippet mapping applied in the header branch of onmessage:
field renames relative_path to path, text to code, repo_name to repoName,
lang to lang, start_line to line. -/
def mapSnippet (item : NLSnippet) : DisplaySnippet :=
  { path := item.relative_path
    code := item.text
    repoName := item.repo_name
    lang := item.lang
    line := item.start_line }

/-- One conversation turn. The ident field models JavaScript object
identity: each newly constructed turn object gets a fresh ident. -/
structure ConversationMessage where
  ident : Nat
  author : Author
  text : Option String := none
  isLoading : Bool := false
  error : Option String := none
  snippets : Option (List DisplaySnippet) := none
deriving DecidableEq

/-- Parsed JSON payload of a non sentinel event: optional keys Err,
query_id, snippets, Ok. -/
structure EventData where
  Err : Option String := none
  query_id : Option String := none
  snippets : Option (List NLSnippet) := none
  Ok : Option String := none
deriving DecidableEq

/-- An inbound stream event as seen by onmessage: the literal sentinel
string, a payload that parses to JSON, or a payload on which JSON.parse
throws. -/
inductive StreamEvent
  | done
  | data (d : EventData)
  | malformed
deriving DecidableEq

/-- The whole controller state: React hooks, the module level
prevEventSource reference (by session id), the session id supply, the
event counter i of the live closure, the set of sessions whose
EventSource has been closed, the ident supply, and a count of exceptions
that escaped the onmessage handler (unhandled JSON.parse throws). -/
structure ControllerState where
  isLoading : Bool
  conversation : List ConversationMessage
  searchId : Option String
  currentlyViewedSnippets : Nat
  prevEventSource : Option Nat
  nextSession : Nat
  counter : Nat
  closed : List Nat
  nextIdent : Nat
  thrown : Nat
deriving DecidableEq

/-- JavaScript truthiness of an optional string field (an absent field
and the empty string are falsy). -/
def truthyStr : Option String → Bool
  | some s => !s.isEmpty
  | none => false

/-- The token concatenation (prev.text or empty) + newData.Ok. In
JavaScript, string + undefined yields the text undefined, which the
getD branch reproduces. -/
def jsAppendOk (t : Option String) (ok : Option String) : String :=
  t.getD "" ++ ok.getD "undefined"

/-- In place replacement of the last conversation element, as performed
by every setConversation of the form prev.slice(0,-1) concatenated with
the spread updated prev.slice(-1)[0]. The new object gets a fresh ident.
On the empty list (unreachable: the conversation always holds the
initial user turn) the state is returned unchanged. -/
def updateLast (st : ControllerState) (f : ConversationMessage → ConversationMessage) :
    ControllerState :=
  match st.conversation.getLast? with
  | some m =>
      { st with
        conversation := st.conversation.dropLast ++ [{ f m with ident := st.nextIdent }]
        nextIdent := st.nextIdent + 1 }
  | none => st

/-- The index (ident) of the most recent server authored turn, i.e. the
object identity of the lastServerResponse memo: it changes exactly when
the memo recomputes to a different object. -/
def lastServerIdent (conv : List ConversationMessage) : Option Nat :=
  ((conv.filter fun m => m.author == Author.server).getLast?).map fun m => m.ident

/-- The useEffect keyed on lastServerResponse: when its identity changed
between the old and the new state, currentlyViewedSnippets is set to
conversation.length - 1. -/
def applyEffect (old new : ControllerState) : ControllerState :=
  if lastServerIdent new.conversation = lastServerIdent old.conversation then new
  else { new with currentlyViewedSnippets := new.conversation.length - 1 }

/-- makeSearch: set loading, close any previous EventSource, open a new
one (fresh session id), append the server placeholder turn, reset the
per session counter i to zero. -/
def makeSearch (st : ControllerState) : ControllerState :=
  let st1 := { st with isLoading := true }
  let st2 :=
    match st1.prevEventSource with
    | some s => { st1 with closed := s :: st1.closed }
    | none => st1
  { st2 with
    prevEventSource := some st2.nextSession
    nextSession := st2.nextSession + 1
    conversation := st2.conversation ++
      [{ ident := st2.nextIdent, author := Author.server, isLoading := true }]
    nextIdent := st2.nextIdent + 1
    counter := 0 }

/-- handleNewMessage: append the user turn, then makeSearch. -/
def handleNewMessage (st : ControllerState) (message : String) : ControllerState :=
  makeSearch
    { st with
      conversation := st.conversation ++
        [{ ident := st.nextIdent, author := Author.user, text := some message,
           isLoading := false }]
      nextIdent := st.nextIdent + 1 }

/-- onmessage of the EventSource of session sid. A closed session fires
no callback. The sentinel closes the stream, clears the loading flag of
the last turn and clears prevEventSource. Otherwise the payload is
parsed: a parse failure throws out of the handler (thrown is bumped,
nothing else runs, i is not incremented). On the first event (i = 0) a
truthy Err mutates the last turn to an error turn, else the header is
applied (loading off, searchId recorded, snippets mapped with default
empty); later events append the Ok fragment to the last turn text. -/
def onmessage (st : ControllerState) (sid : Nat) (e : StreamEvent) : ControllerState :=
  if st.closed.contains sid then st
  else
    match e with
    | StreamEvent.done =>
        let st1 := updateLast st fun m => { m with isLoading := false }
        { st1 with closed := sid :: st1.closed, prevEventSource := none }
    | StreamEvent.malformed => { st with thrown := st.thrown + 1 }
    | StreamEvent.data d =>
        if st.counter == 0 then
          if truthyStr d.Err then
            let st1 := { st with isLoading := false }
            let st2 := updateLast st1 fun m =>
              { m with isLoading := false, error := d.Err }
            { st2 with counter := st2.counter + 1 }
          else
            let st1 := { st with isLoading := false, searchId := d.query_id }
            let st2 := updateLast st1 fun m =>
              { m with isLoading := true
                       snippets := some ((d.snippets.getD []).map mapSnippet) }
            { st2 with counter := st2.counter + 1 }
        else
          let st1 := updateLast st fun m =>
            { m with text := some (jsAppendOk m.text d.Ok) }
          { st1 with counter := st1.counter + 1 }

/-- onerror of the EventSource of session sid: clear the controller
loading flag and append a fresh server turn with the fixed error text.
The handler neither closes the EventSource nor clears prevEventSource. -/
def onerror (st : ControllerState) (sid : Nat) : ControllerState :=
  if st.closed.contains sid then st
  else
    { st with
      isLoading := false
      conversation := st.conversation ++
        [{ ident := st.nextIdent, author := Author.server, isLoading := false,
           error := some "Sorry, something went wrong" }]
      nextIdent := st.nextIdent + 1 }

/-- The external operations on the controller: a user submit, an inbound
event of session sid, a transport error of session sid, and the manual
setCurrentlyViewedSnippets exposed to the conversation view. -/
inductive Op
  | submit (message : String)
  | message (sid : Nat) (e : StreamEvent)
  | streamError (sid : Nat)
  | setViewed (idx : Nat)
deriving DecidableEq

/-- One raw operation, before the derived state effect runs. -/
def stepRaw (st : ControllerState) : Op → ControllerState
  | Op.submit m => handleNewMessage st m
  | Op.message sid e => onmessage st sid e
  | Op.streamError sid => onerror st sid
  | Op.setViewed idx => { st with currentlyViewedSnippets := idx }

/-- One operation followed by the lastServerResponse keyed effect. -/
def step (st : ControllerState) (op : Op) : ControllerState :=
  applyEffect st (stepRaw st op)

/-- Component mount for a query: the initial hook values (loading true,
conversation holding the single user turn, searchId the empty string,
viewed index zero) followed by the initial makeSearch effect. -/
def mount (query : String) : ControllerState :=
  let base : ControllerState :=
    { isLoading := true
      conversation := [{ ident := 0, author := Author.user, text := some query,
                         isLoading := false }]
      searchId := some ""
      currentlyViewedSnippets := 0
      prevEventSource := none
      nextSession := 0
      counter := 0
      closed := []
      nextIdent := 1
      thrown := 0 }
  applyEffect base (makeSearch base)

/-- A full run: mount for the query, then the listed operations. -/
def run (query : String) (ops : List Op) : ControllerState :=
  ops.foldl step (mount query)

/-- The last turn of the conversation. -/
def lastTurn (st : ControllerState) : Option ConversationMessage :=
  st.conversation.getLast?

/-- The reachability invariant used for the conversation head: at least
two turns and the first one authored by the user. -/
def headIsUser (st : ControllerState) : Prop :=
  2 ≤ st.conversation.length ∧
    (st.conversation.head?.map fun m => m.author) = some Author.user

/-- A concrete raw snippet used to instantiate witnesses. -/
def sampleSnippet : NLSnippet :=
  { relative_path := "a.rs", text := "fn a", repo_name := "r", lang := "rust",
    start_line := 3 }

/-- The event trace of the session scenario of the first testable
property: a header event carrying a query id and two snippets, two Ok
token events, then the sentinel, all on session 0 (the mount session). -/
def headerTokensDoneOps (s1 s2 : NLSnippet) : List Op :=
  [ Op.message 0 (StreamEvent.data { query_id := some "q1", snippets := some [s1, s2] }),
    Op.message 0 (StreamEvent.data { Ok := some "Hello" }),
    Op.message 0 (StreamEvent.data { Ok := some " world" }),
    Op.message 0 StreamEvent.done ]

/-! Helper lemmas shared by the claim theorems. -/

@[simp]
lemma applyEffect_conversation (old new : ControllerState) :
    (applyEffect old new).conversation = new.conversation := by
  unfold applyEffect; split <;> rfl

@[simp]
lemma applyEffect_isLoading (old new : ControllerState) :
    (applyEffect old new).isLoading = new.isLoading := by
  unfold applyEffect; split <;> rfl

@[simp]
lemma applyEffect_closed (old new : ControllerState) :
    (applyEffect old new).closed = new.closed := by
  unfold applyEffect; split <;> rfl

@[simp]
lemma applyEffect_prevEventSource (old new : ControllerState) :
    (applyEffect old new).prevEventSource = new.prevEventSource := by
  unfold applyEffect; split <;> rfl

@[simp]
lemma applyEffect_searchId (old new : ControllerState) :
    (applyEffect old new).searchId = new.searchId := by
  unfold applyEffect; split <;> rfl

@[simp]
lemma applyEffect_thrown (old new : ControllerState) :
    (applyEffect old new).thrown = new.thrown := by
  unfold applyEffect; split <;> rfl

@[simp]
lemma applyEffect_counter (old new : ControllerState) :
    (applyEffect old new).counter = new.counter := by
  unfold applyEffect; split <;> rfl

@[simp]
lemma applyEffect_nextIdent (old new : ControllerState) :
    (applyEffect old new).nextIdent = new.nextIdent := by
  unfold applyEffect; split <;> rfl

@[simp]
lemma applyEffect_nextSession (old new : ControllerState) :
    (applyEffect old new).nextSession = new.nextSession := by
  unfold applyEffect; split <;> rfl

lemma applyEffect_self (st : ControllerState) : applyEffect st st = st := by
  unfold applyEffect; simp

/-- A step whose raw operation leaves the state unchanged is the
identity: the effect sees an unchanged lastServerResponse. -/
lemma step_of_stepRaw_eq (st : ControllerState) (op : Op)
    (h : stepRaw st op = st) : step st op = st := by
  unfold step; rw [h, applyEffect_self]

lemma lastServerIdent_concat (l : List ConversationMessage) (m : ConversationMessage) :
    lastServerIdent (l ++ [m]) =
      if m.author = Author.server then some m.ident else lastServerIdent l := by
  unfold lastServerIdent
  rw [List.filter_append]
  by_cases hm : m.author = Author.server
  · simp [List.filter_cons, hm, List.getLast?_concat]
  · simp [List.filter_cons, hm]

lemma getLast?_concat_cm (l : List ConversationMessage) (m : ConversationMessage) :
    (l ++ [m]).getLast? = some m := List.getLast?_concat l

/-- A conversation with a known last element splits as dropLast plus
that element. -/
lemma conv_eq_dropLast_concat (l : List ConversationMessage) (m : ConversationMessage)
    (h : l.getLast? = some m) : l = l.dropLast ++ [m] :=
  (List.dropLast_append_getLast? m h).symm

/-- updateLast leaves the conversation alone or replaces exactly the
last element, with the author preserved when f preserves it. -/
lemma updateLast_conversation (st : ControllerState)
    (f : ConversationMessage → ConversationMessage) :
    (updateLast st f).conversation = st.conversation ∨
      ∃ m, st.conversation.getLast? = some m ∧
        (updateLast st f).conversation =
          st.conversation.dropLast ++ [{ f m with ident := st.nextIdent }] := by
  unfold updateLast
  cases h : st.conversation.getLast? with
  | none => exact Or.inl rfl
  | some m => exact Or.inr ⟨m, rfl, rfl⟩

lemma updateLast_cvs (st : ControllerState)
    (f : ConversationMessage → ConversationMessage) :
    (updateLast st f).currentlyViewedSnippets = st.currentlyViewedSnippets := by
  unfold updateLast
  cases h : st.conversation.getLast? <;> rfl

lemma updateLast_closed (st : ControllerState)
    (f : ConversationMessage → ConversationMessage) :
    (updateLast st f).closed = st.closed := by
  unfold updateLast
  cases h : st.conversation.getLast? <;> rfl

lemma updateLast_isLoading (st : ControllerState)
    (f : ConversationMessage → ConversationMessage) :
    (updateLast st f).isLoading = st.isLoading := by
  unfold updateLast
  cases h : st.conversation.getLast? <;> rfl

lemma updateLast_prevEventSource (st : ControllerState)
    (f : ConversationMessage → ConversationMessage) :
    (updateLast st f).prevEventSource = st.prevEventSource := by
  unfold updateLast
  cases h : st.conversation.getLast? <;> rfl

lemma updateLast_searchId (st : ControllerState)
    (f : ConversationMessage → ConversationMessage) :
    (updateLast st f).searchId = st.searchId := by
  unfold updateLast
  cases h : st.conversation.getLast? <;> rfl

/-- If updateLast changed the identity of the most recent server turn,
the last element of the result is a server turn (f preserving authors). -/
lemma lastServerIdent_updateLast (st : ControllerState)
    (f : ConversationMessage → ConversationMessage)
    (hf : ∀ m, (f m).author = m.author)
    (h : lastServerIdent (updateLast st f).conversation ≠
      lastServerIdent st.conversation) :
    ((updateLast st f).conversation.getLast?).map (fun m => m.author) =
      some Author.server := by
  rcases updateLast_conversation st f with heq | ⟨m, hm, heq⟩
  · exact absurd (by rw [heq]) h
  · rw [heq, getLast?_concat_cm]
    have hauth : ({ f m with ident := st.nextIdent } : ConversationMessage).author
        = m.author := hf m
    cases hmu : m.author with
    | server => simp [hauth, hmu, hf m]
    | user =>
      exfalso
      apply h
      have h2 : lastServerIdent st.conversation =
          lastServerIdent st.conversation.dropLast := by
        conv_lhs => rw [conv_eq_dropLast_concat st.conversation m hm]
        rw [lastServerIdent_concat]; simp [hmu]
      rw [heq, lastServerIdent_concat, h2]
      simp [hauth, hmu, hf m]

/-- Once an EventSource is closed, its onmessage handler never runs. -/
lemma onmessage_of_closed (st : ControllerState) (sid : Nat) (e : StreamEvent)
    (h : st.closed.contains sid = true) : onmessage st sid e = st := by
  unfold onmessage; rw [h]; rfl

/-- Once an EventSource is closed, its onerror handler never runs. -/
lemma onerror_of_closed (st : ControllerState) (sid : Nat)
    (h : st.closed.contains sid = true) : onerror st sid = st := by
  unfold onerror; rw [h]; rfl

/-- The set of closed sessions only grows under any operation. -/
lemma closed_mono (st : ControllerState) (op : Op) (s : Nat)
    (h : st.closed.contains s = true) : (step st op).closed.contains s = true := by
  unfold step
  rw [applyEffect_closed]
  cases op with
  | submit m =>
      show (handleNewMessage st m).closed.contains s = true
      unfold handleNewMessage makeSearch
      cases hp : st.prevEventSource <;>
        simp_all [List.contains_cons]
  | message sid e =>
      show (onmessage st sid e).closed.contains s = true
      unfold onmessage
      cases hc : st.closed.contains sid
      · cases e with
        | done =>
            simp only [Bool.false_eq_true, if_false]
            rw [updateLast_closed] at *
            have hmem : s ∈ st.closed := by simpa using h
            simp [List.contains_cons, hmem]
        | malformed => simpa using h
        | data d =>
            simp only [Bool.false_eq_true, if_false]
            cases hz : st.counter == 0 <;> cases ht : truthyStr d.Err <;>
              simp_all [updateLast_closed]
      · simpa using h
  | streamError sid =>
      show (onerror st sid).closed.contains s = true
      unfold onerror
      cases hc : st.closed.contains sid <;> simpa using h
  | setViewed idx => simpa using h

/-- Submitting a new message closes the session referenced by
prevEventSource before the new session is opened. -/
lemma submit_closes_prev (st : ControllerState) (m : String) (s : Nat)
    (h : st.prevEventSource = some s) :
    (step st (Op.submit m)).closed.contains s = true := by
  unfold step
  rw [applyEffect_closed]
  show (handleNewMessage st m).closed.contains s = true
  unfold handleNewMessage makeSearch
  simp [h, List.contains_cons]

/-- Events and transport errors of a closed session leave the whole
state unchanged. -/
lemma step_closed_noop (st : ControllerState) (s : Nat)
    (h : st.closed.contains s = true) :
    (∀ e, step st (Op.message s e) = st) ∧ step st (Op.streamError s) = st := by
  constructor
  · intro e
    exact step_of_stepRaw_eq st (Op.message s e) (onmessage_of_closed st s e h)
  · exact step_of_stepRaw_eq st (Op.streamError s) (onerror_of_closed st s h)

/-- Closedness of a session survives any list of further operations. -/
lemma closed_mono_foldl (ops : List Op) (st : ControllerState) (s : Nat)
    (h : st.closed.contains s = true) :
    (ops.foldl step st).closed.contains s = true := by
  induction ops generalizing st with
  | nil => exact h
  | cons op rest ih => exact ih (step st op) (closed_mono st op s h)

lemma ne_nil_of_getLast?_eq_some {l : List ConversationMessage}
    {m : ConversationMessage} (h : l.getLast? = some m) : l ≠ [] := by
  intro hnil; rw [hnil] at h; simp at h

/-- The conversation after a submit: the previous conversation, the new
user turn, then the server placeholder. -/
lemma handleNewMessage_conversation (st : ControllerState) (m : String) :
    (handleNewMessage st m).conversation =
      st.conversation ++
        [{ ident := st.nextIdent, author := Author.user, text := some m,
           isLoading := false },
         { ident := st.nextIdent + 1, author := Author.server, isLoading := true }] := by
  unfold handleNewMessage makeSearch
  cases hp : st.prevEventSource <;> simp

/-- Every operation either appends at the end of the conversation or
replaces exactly the last element. -/
lemma step_conversation_shape (st : ControllerState) (op : Op) :
    (∃ tail, (step st op).conversation = st.conversation ++ tail) ∨
    (st.conversation ≠ [] ∧ ∃ m,
      (step st op).conversation = st.conversation.dropLast ++ [m]) := by
  unfold step
  rw [applyEffect_conversation]
  have hupd : ∀ (st1 : ControllerState)
      (f : ConversationMessage → ConversationMessage),
      st1.conversation = st.conversation →
      ((∃ tail, (updateLast st1 f).conversation = st.conversation ++ tail) ∨
        (st.conversation ≠ [] ∧ ∃ m,
          (updateLast st1 f).conversation = st.conversation.dropLast ++ [m])) := by
    intro st1 f hconv
    rcases updateLast_conversation st1 f with h | ⟨m, hm, h⟩
    · exact Or.inl ⟨[], by rw [h, hconv, List.append_nil]⟩
    · rw [hconv] at hm h
      exact Or.inr ⟨ne_nil_of_getLast?_eq_some hm, _, h⟩
  cases op with
  | submit m => exact Or.inl ⟨_, handleNewMessage_conversation st m⟩
  | message sid e =>
      simp only [stepRaw]
      unfold onmessage
      by_cases hc : st.closed.contains sid = true
      · rw [if_pos hc]; exact Or.inl ⟨[], (List.append_nil _).symm⟩
      · rw [if_neg hc]
        cases e with
        | done => exact hupd st (fun m => { m with isLoading := false }) rfl
        | malformed => exact Or.inl ⟨[], (List.append_nil _).symm⟩
        | data d =>
            dsimp only
            by_cases hz : (st.counter == 0) = true
            · rw [if_pos hz]
              by_cases ht : truthyStr d.Err = true
              · rw [if_pos ht]
                exact hupd { st with isLoading := false }
                  (fun m => { m with isLoading := false, error := d.Err }) rfl
              · rw [if_neg ht]
                exact hupd { st with isLoading := false, searchId := d.query_id }
                  (fun m => { m with isLoading := true, snippets := some ((d.snippets.getD []).map mapSnippet) }) rfl
            · rw [if_neg hz]
              exact hupd st
                (fun m => { m with text := some (jsAppendOk m.text d.Ok) }) rfl
  | streamError sid =>
      simp only [stepRaw]
      unfold onerror
      by_cases hc : st.closed.contains sid = true
      · rw [if_pos hc]; exact Or.inl ⟨[], (List.append_nil _).symm⟩
      · rw [if_neg hc]; exact Or.inl ⟨_, rfl⟩
  | setViewed idx => exact Or.inl ⟨[], (List.append_nil _).symm⟩

lemma headIsUser_mount (q : String) : headIsUser (mount q) := by
  constructor <;> simp [mount, makeSearch]

lemma headIsUser_step (st : ControllerState) (op : Op) (hp : headIsUser st) :
    headIsUser (step st op) := by
  obtain ⟨hlen, hhead⟩ := hp
  cases hl : st.conversation with
  | nil => rw [hl] at hlen; simp at hlen
  | cons a t =>
    cases t with
    | nil => rw [hl] at hlen; simp at hlen
    | cons b t' =>
      have hd : (a :: b :: t').dropLast = a :: (b :: t').dropLast := rfl
      rcases step_conversation_shape st op with ⟨tail, h⟩ | ⟨hne, m, h⟩
      · constructor
        · rw [h, hl]
          simp only [List.length_append, List.length_cons]
          omega
        · rw [hl] at hhead; rw [h, hl]; simpa using hhead
      · constructor
        · rw [h, hl, hd]
          simp only [List.length_append, List.length_cons]
          omega
        · rw [hl] at hhead; rw [h, hl, hd]; simpa using hhead

lemma headIsUser_foldl (ops : List Op) (st : ControllerState)
    (h : headIsUser st) : headIsUser (ops.foldl step st) := by
  induction ops generalizing st with
  | nil => exact h
  | cons op rest ih => exact ih (step st op) (headIsUser_step st op h)

/-- No operation other than the manual setter touches
currentlyViewedSnippets before the effect runs. -/
lemma stepRaw_cvs (st : ControllerState) (op : Op)
    (h : ∀ j, op ≠ Op.setViewed j) :
    (stepRaw st op).currentlyViewedSnippets = st.currentlyViewedSnippets := by
  cases op with
  | submit m =>
      show (handleNewMessage st m).currentlyViewedSnippets = _
      unfold handleNewMessage makeSearch
      cases hp : st.prevEventSource <;> rfl
  | message sid e =>
      simp only [stepRaw]
      unfold onmessage
      by_cases hc : st.closed.contains sid = true
      · rw [if_pos hc]
      · rw [if_neg hc]
        cases e with
        | done => exact updateLast_cvs st _
        | malformed => rfl
        | data d =>
            dsimp only
            by_cases hz : (st.counter == 0) = true
            · rw [if_pos hz]
              by_cases ht : truthyStr d.Err = true
              · rw [if_pos ht]; exact updateLast_cvs _ _
              · rw [if_neg ht]; exact updateLast_cvs _ _
            · rw [if_neg hz]; exact updateLast_cvs _ _
  | streamError sid =>
      simp only [stepRaw]
      unfold onerror
      by_cases hc : st.closed.contains sid = true
      · rw [if_pos hc]
      · rw [if_neg hc]
  | setViewed j => exact absurd rfl (h j)

lemma applyEffect_cvs_ne (old new : ControllerState)
    (h : lastServerIdent new.conversation ≠ lastServerIdent old.conversation) :
    (applyEffect old new).currentlyViewedSnippets = new.conversation.length - 1 := by
  unfold applyEffect; rw [if_neg h]

lemma getLast?_append_two (l : List ConversationMessage)
    (a b : ConversationMessage) : (l ++ [a, b]).getLast? = some b := by
  rw [show l ++ [a, b] = (l ++ [a]) ++ [b] by simp]
  exact List.getLast?_concat _

/-- Whenever a raw operation changes the identity of the most recent
server turn, the last element of the new conversation is a server turn
(so the last index is the index of the newest server turn). -/
lemma stepRaw_lastServer_of_ident_ne (st : ControllerState) (op : Op)
    (h : lastServerIdent (stepRaw st op).conversation ≠
      lastServerIdent st.conversation) :
    (((stepRaw st op).conversation.getLast?).map fun m => m.author) =
      some Author.server := by
  cases op with
  | submit m =>
      have hc := handleNewMessage_conversation st m
      show (((handleNewMessage st m).conversation.getLast?).map fun x => x.author) = _
      rw [hc, getLast?_append_two]
      rfl
  | setViewed idx => exact absurd rfl h
  | streamError sid =>
      simp only [stepRaw] at h ⊢
      unfold onerror at h ⊢
      by_cases hc : st.closed.contains sid = true
      · rw [if_pos hc] at h; exact absurd rfl h
      · rw [if_neg hc]
        dsimp only
        rw [getLast?_concat_cm]
        rfl
  | message sid e =>
      simp only [stepRaw] at h ⊢
      unfold onmessage at h ⊢
      by_cases hc : st.closed.contains sid = true
      · rw [if_pos hc] at h; exact absurd rfl h
      · rw [if_neg hc] at h ⊢
        cases e with
        | done =>
            dsimp only at h ⊢
            exact lastServerIdent_updateLast st _ (fun m => rfl) h
        | malformed => exact absurd rfl h
        | data d =>
            dsimp only at h ⊢
            by_cases hz : (st.counter == 0) = true
            · rw [if_pos hz] at h ⊢
              by_cases ht : truthyStr d.Err = true
              · rw [if_pos ht] at h ⊢
                exact lastServerIdent_updateLast { st with isLoading := false }
                  _ (fun m => rfl) h
              · rw [if_neg ht] at h ⊢
                exact lastServerIdent_updateLast
                  { st with isLoading := false, searchId := d.query_id }
                  _ (fun m => rfl) h
            · rw [if_neg hz] at h ⊢
              exact lastServerIdent_updateLast st _ (fun m => rfl) h

lemma submit_isLoading (st : ControllerState) (m : String) :
    (step st (Op.submit m)).isLoading = true := by
  unfold step
  rw [applyEffect_isLoading]
  show (handleNewMessage st m).isLoading = true
  unfold handleNewMessage makeSearch
  cases st.prevEventSource <;> rfl

lemma submit_counter (st : ControllerState) (m : String) :
    (step st (Op.submit m)).counter = 0 := by
  unfold step
  rw [applyEffect_counter]
  show (handleNewMessage st m).counter = 0
  unfold handleNewMessage makeSearch
  cases st.prevEventSource <;> rfl

lemma submit_prevEventSource (st : ControllerState) (m : String) :
    (step st (Op.submit m)).prevEventSource = some st.nextSession := by
  unfold step
  rw [applyEffect_prevEventSource]
  show (handleNewMessage st m).prevEventSource = some st.nextSession
  unfold handleNewMessage makeSearch
  cases st.prevEventSource <;> rfl

/-- C1: for a session whose events are a header with query id q1 and
snippets s1, s2, then Ok Hello, then Ok space world, then the sentinel,
the final last turn has author server, isLoading false, snippets the
mapped s1 and s2, and text Hello world; on the sentinel the stream is
closed and the active session reference is cleared. -/
theorem C1_header_tokens_done (q : String) (s1 s2 : NLSnippet) :
    (((run q (headerTokensDoneOps s1 s2)).conversation.getLast?).map
        fun m => (m.author, m.isLoading, m.snippets, m.text))
      = some (Author.server, false, some [mapSnippet s1, mapSnippet s2],
          some "Hello world") ∧
    (run q (headerTokensDoneOps s1 s2)).prevEventSource = none ∧
    (run q (headerTokensDoneOps s1 s2)).closed.contains 0 = true := by
  refine ⟨?_, ?_, ?_⟩ <;>
    simp [run, headerTokensDoneOps, mount, step, stepRaw, onmessage, applyEffect,
      updateLast, makeSearch, handleNewMessage, lastServerIdent, jsAppendOk,
      truthyStr, mapSnippet]

/-- C2 counterexample: after a first event with Err bad query on the
mount session, the closed list is still empty (the Err branch never
calls close), and a subsequent Ok event is still processed: it mutates
the last turn text. This falsifies the claim that the stream is closed
and no further events of the session are processed. -/
theorem C2_counterexample :
    (run "q" [Op.message 0 (StreamEvent.data { Err := some "bad query" })]).closed
      = [] ∧
    ((lastTurn (run "q"
        [Op.message 0 (StreamEvent.data { Err := some "bad query" }),
         Op.message 0 (StreamEvent.data { Ok := some " more" })])).map
      fun m => m.text) = some (some " more") := by
  decide

/-- C2 amended: a first event with a non empty Err sets the controller
loading flag to false and mutates the last turn in place to an error
turn, but the stream is not closed and the session reference is kept,
so further events of the session would still be processed. -/
theorem C2_amended (st : ControllerState) (sid : Nat) (err : String)
    (hopen : st.closed.contains sid = false) (hcount : st.counter = 0)
    (herr : err ≠ "") (m : ConversationMessage)
    (hlast : st.conversation.getLast? = some m) :
    (step st (Op.message sid (StreamEvent.data { Err := some err }))).isLoading
      = false ∧
    (step st (Op.message sid (StreamEvent.data { Err := some err }))).conversation
      = st.conversation.dropLast ++
        [{ m with ident := st.nextIdent, isLoading := false, error := some err }] ∧
    (step st (Op.message sid (StreamEvent.data { Err := some err }))).closed
      = st.closed ∧
    (step st (Op.message sid (StreamEvent.data { Err := some err }))).prevEventSource
      = st.prevEventSource := by
  have ht : truthyStr (some err) = true := by
    unfold truthyStr
    dsimp only
    cases hb : err.isEmpty
    · rfl
    · exact absurd ((String.isEmpty_iff err).mp hb) herr
  unfold step
  simp only [stepRaw, applyEffect_isLoading, applyEffect_conversation,
    applyEffect_closed, applyEffect_prevEventSource]
  unfold onmessage
  rw [if_neg (by rw [hopen]; exact Bool.false_ne_true)]
  dsimp only
  rw [if_pos (by rw [hcount]; rfl), if_pos (by exact ht)]
  refine ⟨updateLast_isLoading _ _, ?_, updateLast_closed _ _,
    updateLast_prevEventSource _ _⟩
  unfold updateLast
  dsimp only
  rw [hlast]

/-- C2 witness: the amended claim instantiated on the mount session. -/
theorem C2_witness :
    (step (mount "q") (Op.message 0 (StreamEvent.data { Err := some "bad query" }))).isLoading
      = false ∧
    (step (mount "q") (Op.message 0 (StreamEvent.data { Err := some "bad query" }))).conversation
      = (mount "q").conversation.dropLast ++
        [{ ({ ident := 1, author := Author.server, isLoading := true } : ConversationMessage)
            with ident := (mount "q").nextIdent, isLoading := false,
                 error := some "bad query" }] ∧
    (step (mount "q") (Op.message 0 (StreamEvent.data { Err := some "bad query" }))).closed
      = (mount "q").closed ∧
    (step (mount "q") (Op.message 0 (StreamEvent.data { Err := some "bad query" }))).prevEventSource
      = (mount "q").prevEventSource :=
  C2_amended (mount "q") 0 "bad query" (by decide) (by decide) (by decide)
    { ident := 1, author := Author.server, isLoading := true } (by decide)

/-- C3 counterexample: after a transport error on the mount session the
active session reference is still set and the closed list is empty, so
the session is neither closed nor discarded, falsifying that part of
the claim. -/
theorem C3_counterexample :
    (run "q" [Op.streamError 0]).prevEventSource = some 0 ∧
    (run "q" [Op.streamError 0]).closed = [] := by
  decide

/-- C3 amended: on a transport error the controller sets loading to
false and appends a brand new server turn with the fixed error text,
leaving every existing turn (including the in flight one and its
partial text) untouched; the handler does not close the connection and
does not clear the active session reference. -/
theorem C3_amended (st : ControllerState) (sid : Nat)
    (hopen : st.closed.contains sid = false) :
    (step st (Op.streamError sid)).isLoading = false ∧
    (step st (Op.streamError sid)).conversation =
      st.conversation ++
        [{ ident := st.nextIdent, author := Author.server, isLoading := false,
           error := some "Sorry, something went wrong" }] ∧
    (step st (Op.streamError sid)).closed = st.closed ∧
    (step st (Op.streamError sid)).prevEventSource = st.prevEventSource := by
  unfold step
  simp only [stepRaw, applyEffect_isLoading, applyEffect_conversation,
    applyEffect_closed, applyEffect_prevEventSource]
  unfold onerror
  rw [if_neg (by rw [hopen]; exact Bool.false_ne_true)]
  exact ⟨rfl, rfl, rfl, rfl⟩

/-- C3 witness: the amended claim instantiated on the mount session. -/
theorem C3_witness :
    (step (mount "q") (Op.streamError 0)).isLoading = false ∧
    (step (mount "q") (Op.streamError 0)).conversation =
      (mount "q").conversation ++
        [{ ident := (mount "q").nextIdent, author := Author.server,
           isLoading := false, error := some "Sorry, something went wrong" }] ∧
    (step (mount "q") (Op.streamError 0)).closed = (mount "q").closed ∧
    (step (mount "q") (Op.streamError 0)).prevEventSource =
      (mount "q").prevEventSource :=
  C3_amended (mount "q") 0 (by decide)

/-- C4 counterexample: submitting a second message while the mount
session is still awaiting its first event leaves the superseded server
placeholder loading and appends a second loading placeholder, so two
placeholders are loading at once, falsifying the at most one clause. -/
theorem C4_counterexample :
    ¬ (((run "q" [Op.submit "hi"]).conversation.filter
          fun m => decide (m.author = Author.server) && m.isLoading).length ≤ 1) := by
  decide

/-- C4 amended: for every submitted message (empty and whitespace
included) the conversation after submit is the previous conversation,
then the user turn carrying the message, then a fresh loading server
placeholder; superseded placeholders may however stay loading, so more
than one loading placeholder can coexist. -/
theorem C4_amended (st : ControllerState) (m : String) :
    (step st (Op.submit m)).conversation =
      st.conversation ++
        [{ ident := st.nextIdent, author := Author.user, text := some m,
           isLoading := false }] ++
        [{ ident := st.nextIdent + 1, author := Author.server,
           isLoading := true }] := by
  unfold step
  rw [applyEffect_conversation]
  rw [show stepRaw st (Op.submit m) = handleNewMessage st m from rfl]
  rw [handleNewMessage_conversation]
  simp

/-- C5: once a submit supersedes the session referenced by
prevEventSource, that sessions EventSource is closed, and after any
further list of operations neither an event nor a transport error of
the superseded session changes the state at all. -/
theorem C5_superseded_session_inert (st : ControllerState) (m : String) (s : Nat)
    (h : st.prevEventSource = some s) (ops : List Op) (e : StreamEvent) :
    (step (ops.foldl step (step st (Op.submit m))) (Op.message s e) =
      ops.foldl step (step st (Op.submit m))) ∧
    (step (ops.foldl step (step st (Op.submit m))) (Op.streamError s) =
      ops.foldl step (step st (Op.submit m))) := by
  have hclosed : (ops.foldl step (step st (Op.submit m))).closed.contains s = true :=
    closed_mono_foldl ops _ s (submit_closes_prev st m s h)
  exact ⟨(step_closed_noop _ s hclosed).1 e, (step_closed_noop _ s hclosed).2⟩

/-- C5 witness: the mount session (id 0) is inert right after a new
submit. -/
theorem C5_witness :
    (step (([] : List Op).foldl step (step (mount "q") (Op.submit "hi")))
        (Op.message 0 StreamEvent.done) =
      ([] : List Op).foldl step (step (mount "q") (Op.submit "hi"))) ∧
    (step (([] : List Op).foldl step (step (mount "q") (Op.submit "hi")))
        (Op.streamError 0) =
      ([] : List Op).foldl step (step (mount "q") (Op.submit "hi"))) :=
  C5_superseded_session_inert (mount "q") "hi" 0 (by decide) [] StreamEvent.done

/-- C6: a first event without an Err field clears the controller
loading flag, records query_id as the session identifier, and mutates
the last turn in place to a still loading turn carrying the mapped
snippets (empty when absent); the mapping is exactly the field renames
relative_path to path, text to code, repo_name to repoName, lang to
lang, start_line to line. -/
theorem C6_header_event (st : ControllerState) (sid : Nat) (d : EventData)
    (hopen : st.closed.contains sid = false) (hcount : st.counter = 0)
    (herr : d.Err = none) (m : ConversationMessage)
    (hlast : st.conversation.getLast? = some m) :
    (step st (Op.message sid (StreamEvent.data d))).isLoading = false ∧
    (step st (Op.message sid (StreamEvent.data d))).searchId = d.query_id ∧
    (step st (Op.message sid (StreamEvent.data d))).conversation =
      st.conversation.dropLast ++
        [{ m with ident := st.nextIdent, isLoading := true,
                  snippets := some ((d.snippets.getD []).map mapSnippet) }] ∧
    ∀ s : NLSnippet, mapSnippet s =
      { path := s.relative_path, code := s.text, repoName := s.repo_name,
        lang := s.lang, line := s.start_line } := by
  have ht : truthyStr d.Err = false := by rw [herr]; rfl
  unfold step
  simp only [stepRaw, applyEffect_isLoading, applyEffect_searchId,
    applyEffect_conversation]
  unfold onmessage
  rw [if_neg (by rw [hopen]; exact Bool.false_ne_true)]
  dsimp only
  rw [if_pos (by rw [hcount]; rfl), if_neg (by rw [ht]; exact Bool.false_ne_true)]
  refine ⟨updateLast_isLoading _ _, ?_, ?_, fun s => rfl⟩
  · exact updateLast_searchId _ _
  · unfold updateLast
    dsimp only
    rw [hlast]

/-- C6 witness: the header claim instantiated on the mount session with
one concrete snippet. -/
theorem C6_witness :
    (step (mount "q") (Op.message 0 (StreamEvent.data
        { query_id := some "q1", snippets := some [sampleSnippet] }))).isLoading
      = false ∧
    (step (mount "q") (Op.message 0 (StreamEvent.data
        { query_id := some "q1", snippets := some [sampleSnippet] }))).searchId
      = some "q1" ∧
    (step (mount "q") (Op.message 0 (StreamEvent.data
        { query_id := some "q1", snippets := some [sampleSnippet] }))).conversation
      = (mount "q").conversation.dropLast ++
        [{ ({ ident := 1, author := Author.server, isLoading := true } : ConversationMessage)
            with ident := (mount "q").nextIdent, isLoading := true,
                 snippets := some [mapSnippet sampleSnippet] }] ∧
    ∀ s : NLSnippet, mapSnippet s =
      { path := s.relative_path, code := s.text, repoName := s.repo_name,
        lang := s.lang, line := s.start_line } :=
  C6_header_event (mount "q") 0
    { query_id := some "q1", snippets := some [sampleSnippet] }
    (by decide) (by decide) (by decide)
    { ident := 1, author := Author.server, isLoading := true } (by decide)

/-- C7 counterexample: a malformed payload on the open mount session
lets the JSON parse exception escape the handler (the thrown count goes
from zero to one) while the controller state is otherwise untouched: no
stream level error turn is appended and the loading flag keeps its
value, falsifying the claim that the failure is propagated as a stream
level error instead of escaping. -/
theorem C7_counterexample :
    (step (mount "q") (Op.message 0 StreamEvent.malformed)).thrown = 1 ∧
    (step (mount "q") (Op.message 0 StreamEvent.malformed)).conversation =
      (mount "q").conversation ∧
    (step (mount "q") (Op.message 0 StreamEvent.malformed)).isLoading = true := by
  decide

/-- C7 amended: on a payload that fails to parse, JSON.parse throws and
the exception escapes the onmessage handler unhandled; no state of the
controller changes for that event (no error turn, no loading change,
no counter increment) and no stream level error is synthesized. -/
theorem C7_amended (st : ControllerState) (sid : Nat)
    (hopen : st.closed.contains sid = false) :
    (step st (Op.message sid StreamEvent.malformed)).thrown = st.thrown + 1 ∧
    (step st (Op.message sid StreamEvent.malformed)).conversation =
      st.conversation ∧
    (step st (Op.message sid StreamEvent.malformed)).isLoading = st.isLoading ∧
    (step st (Op.message sid StreamEvent.malformed)).counter = st.counter := by
  unfold step
  simp only [stepRaw, applyEffect_thrown, applyEffect_conversation,
    applyEffect_isLoading, applyEffect_counter]
  unfold onmessage
  rw [if_neg (by rw [hopen]; exact Bool.false_ne_true)]
  exact ⟨rfl, rfl, rfl, rfl⟩

/-- C7 witness: the amended claim instantiated on the mount session. -/
theorem C7_witness :
    (step (mount "q") (Op.message 0 StreamEvent.malformed)).thrown =
      (mount "q").thrown + 1 ∧
    (step (mount "q") (Op.message 0 StreamEvent.malformed)).conversation =
      (mount "q").conversation ∧
    (step (mount "q") (Op.message 0 StreamEvent.malformed)).isLoading =
      (mount "q").isLoading ∧
    (step (mount "q") (Op.message 0 StreamEvent.malformed)).counter =
      (mount "q").counter :=
  C7_amended (mount "q") 0 (by decide)

/-- C8: from any reachable state, every operation either appends turns
at the end of the conversation or replaces only its last element, and
the conversation always starts with a user turn. -/
theorem C8_append_or_replace_last (q : String) (ops : List Op) (op : Op) :
    ((∃ tail, (step (run q ops) op).conversation =
        (run q ops).conversation ++ tail) ∨
      ((run q ops).conversation ≠ [] ∧ ∃ m,
        (step (run q ops) op).conversation =
          (run q ops).conversation.dropLast ++ [m])) ∧
    (((run q ops).conversation.head?).map fun m => m.author) =
      some Author.user := by
  refine ⟨step_conversation_shape (run q ops) op, ?_⟩
  exact (headIsUser_foldl ops (mount q) (headIsUser_mount q)).2

/-- C9: whenever an operation changes the identity of the most recent
server turn (the lastServerResponse memo), currentlyViewedSnippets auto
advances to the last conversation index, and the last element is then a
server turn, so that index is the newest server turns index; after a
manual set, any further operation that leaves that identity unchanged
keeps the manually set index. -/
theorem C9_viewed_snippets_follow :
    (∀ (st : ControllerState) (op : Op),
      lastServerIdent (stepRaw st op).conversation ≠
          lastServerIdent st.conversation →
        (step st op).currentlyViewedSnippets =
          (step st op).conversation.length - 1 ∧
        (((step st op).conversation.getLast?).map fun m => m.author) =
          some Author.server) ∧
    (∀ (st : ControllerState) (idx : Nat) (op : Op),
      (∀ j, op ≠ Op.setViewed j) →
      lastServerIdent (stepRaw (step st (Op.setViewed idx)) op).conversation =
        lastServerIdent (step st (Op.setViewed idx)).conversation →
      (step (step st (Op.setViewed idx)) op).currentlyViewedSnippets = idx) := by
  constructor
  · intro st op h
    constructor
    · show (applyEffect st (stepRaw st op)).currentlyViewedSnippets =
        (applyEffect st (stepRaw st op)).conversation.length - 1
      rw [applyEffect_cvs_ne st _ h, applyEffect_conversation]
    · show (((applyEffect st (stepRaw st op)).conversation.getLast?).map
          fun m => m.author) = some Author.server
      rw [applyEffect_conversation]
      exact stepRaw_lastServer_of_ident_ne st op h
  · intro st idx op hnot h
    have hstep : step (step st (Op.setViewed idx)) op =
        stepRaw (step st (Op.setViewed idx)) op := by
      show applyEffect _ _ = _
      unfold applyEffect
      rw [if_pos h]
    rw [hstep, stepRaw_cvs _ op hnot]
    show (applyEffect st (stepRaw st (Op.setViewed idx))).currentlyViewedSnippets
      = idx
    unfold applyEffect
    rw [if_pos (show lastServerIdent (stepRaw st (Op.setViewed idx)).conversation
      = lastServerIdent st.conversation from rfl)]
    rfl

/-- C9 witness: the auto advance part instantiated on the mount session
with the sentinel event, whose processing replaces the last (server)
turn with a fresh object. -/
theorem C9_witness :
    (step (mount "q") (Op.message 0 StreamEvent.done)).currentlyViewedSnippets =
      (step (mount "q") (Op.message 0 StreamEvent.done)).conversation.length - 1 :=
  ((C9_viewed_snippets_follow.1 (mount "q") (Op.message 0 StreamEvent.done))
    (by decide)).1

/-- C10: when the very first event a fresh session delivers is the
sentinel, the controller level loading flag stays true (the sentinel
branch never resets it, it only closes the stream, clears the last
turns loading flag and the session reference), while a parsed first
event or a transport error on the same session would reset it to
false. -/
theorem C10_done_first_keeps_loading (st : ControllerState) (m : String)
    (hfresh : (step st (Op.submit m)).closed.contains st.nextSession = false) :
    (step (step st (Op.submit m))
        (Op.message st.nextSession StreamEvent.done)).isLoading = true ∧
    (step (step st (Op.submit m))
        (Op.message st.nextSession StreamEvent.done)).prevEventSource = none ∧
    (step (step st (Op.submit m))
        (Op.message st.nextSession StreamEvent.done)).closed.contains
        st.nextSession = true ∧
    (∀ d : EventData,
      (step (step st (Op.submit m))
          (Op.message st.nextSession (StreamEvent.data d))).isLoading = false) ∧
    (step (step st (Op.submit m)) (Op.streamError st.nextSession)).isLoading
      = false := by
  have hload := submit_isLoading st m
  have hcount := submit_counter st m
  refine ⟨?_, ?_, ?_, ?_, ?_⟩
  · show (applyEffect _ (stepRaw _ _)).isLoading = true
    rw [applyEffect_isLoading]
    show (onmessage (step st (Op.submit m)) st.nextSession StreamEvent.done).isLoading
      = true
    unfold onmessage
    rw [if_neg (by rw [hfresh]; exact Bool.false_ne_true)]
    dsimp only
    rw [updateLast_isLoading, hload]
  · show (applyEffect _ (stepRaw _ _)).prevEventSource = none
    rw [applyEffect_prevEventSource]
    show (onmessage (step st (Op.submit m)) st.nextSession StreamEvent.done).prevEventSource
      = none
    unfold onmessage
    rw [if_neg (by rw [hfresh]; exact Bool.false_ne_true)]
  · show (applyEffect _ (stepRaw _ _)).closed.contains st.nextSession = true
    rw [applyEffect_closed]
    show (onmessage (step st (Op.submit m)) st.nextSession StreamEvent.done).closed.contains
      st.nextSession = true
    unfold onmessage
    rw [if_neg (by rw [hfresh]; exact Bool.false_ne_true)]
    dsimp only
    simp [List.contains_cons]
  · intro d
    show (applyEffect _ (stepRaw _ _)).isLoading = false
    rw [applyEffect_isLoading]
    show (onmessage (step st (Op.submit m)) st.nextSession
        (StreamEvent.data d)).isLoading = false
    unfold onmessage
    rw [if_neg (by rw [hfresh]; exact Bool.false_ne_true)]
    dsimp only
    rw [if_pos (by rw [hcount]; rfl)]
    by_cases ht : truthyStr d.Err = true
    · rw [if_pos ht, updateLast_isLoading]
    · rw [if_neg ht, updateLast_isLoading]
  · show (applyEffect _ (stepRaw _ _)).isLoading = false
    rw [applyEffect_isLoading]
    show (onerror (step st (Op.submit m)) st.nextSession).isLoading = false
    unfold onerror
    rw [if_neg (by rw [hfresh]; exact Bool.false_ne_true)]

/-- C10 witness: the claim instantiated on a fresh session opened by a
second submit over the mount state. -/
theorem C10_witness :
    (step (step (mount "q") (Op.submit "hi"))
        (Op.message (mount "q").nextSession StreamEvent.done)).isLoading = true ∧
    (step (step (mount "q") (Op.submit "hi"))
        (Op.message (mount "q").nextSession
          (StreamEvent.data { Err := some "bad" }))).isLoading = false := by
  have h := C10_done_first_keeps_loading (mount "q") "hi" (by decide)
  exact ⟨h.1, h.2.2.2.1 { Err := some "bad" }⟩

end Bloop
